import Mathlib

/-!
Chat relay event loop.

A shallow embedding of the server in `mulichat/main.go`: the three event
handlers (`handleClientConnected`, `handleClientDisconnected`,
`handleNewMessage`), the broadcast router (`broadcastMessage`), the validity
check (`isMessageValid`) and the dispatch loop (`server`).

Modelling conventions.

* The two Go maps are passed in and returned explicitly.  A handler returns the
  maps it received, as it left them, together with the list of input/output
  actions it performed, in program order (`Effect`).
* `time.Now()` is an input of the handler that calls it.  A `Time` is the
  monotonic clock reading (in nanoseconds) that `time.Now()` attaches to every
  value it returns; `Time.Sub` of two such readings is their difference.
* `Duration.Seconds` is the exact quotient by `10^9`.  The Go value is a
  `float64`; the two comparisons the program makes (`< 1.0` and `< 600.0`) have
  the same outcome on the float as on the exact quotient, because a whole number
  of seconds is converted exactly and the fractional part is below one.
* A Go `string` is a list of bytes (`GoString`).  Map keys and log arguments
  that are built from addresses are ASCII and kept as Lean strings.
* `*Client` values are created fresh by `handleClientConnected`, one for each
  map entry, so the update of a field through the pointer is the update of the
  map entry the pointer was read from.
* `StrikeCount` is a Go `int`, 64 bits wide: an integer from `-2^63` to
  `2^63 - 1`.  The increment `author.StrikeCount++` wraps around at that width
  (`wrapInt`).
* The order in which `range` visits a map is unspecified in Go.  A registry is
  a list of entries and the loop of `broadcastMessage` visits it in list order;
  the properties proved of the broadcast hold for every order.
-/

namespace MultiChat

/-! ## Library types -/

/-- One byte of a Go string. -/
abbrev Byte := Fin 256

/-- Go strings are byte sequences, not necessarily valid UTF-8. -/
abbrev GoString := List Byte

/-- UTF-8 encoding of one Unicode scalar value. -/
def encodeRune (n : Nat) : GoString :=
  if n < 0x80 then [Fin.ofNat n]
  else if n < 0x800 then [Fin.ofNat (0xC0 + n / 64), Fin.ofNat (0x80 + n % 64)]
  else if n < 0x10000 then
    [Fin.ofNat (0xE0 + n / 4096), Fin.ofNat (0x80 + n / 64 % 64), Fin.ofNat (0x80 + n % 64)]
  else
    [Fin.ofNat (0xF0 + n / 262144), Fin.ofNat (0x80 + n / 4096 % 64),
      Fin.ofNat (0x80 + n / 64 % 64), Fin.ofNat (0x80 + n % 64)]

/-- Bytes of a string literal of the source, as in the conversion `[]byte("...")`. -/
def bytesOf (s : String) : GoString :=
  s.data.flatMap (fun c => encodeRune c.toNat)

/-- The table `first` and `acceptRanges` of package `unicode/utf8`, merged: for
a leading byte at or above `0x80`, the length of the sequence it starts and the
range allowed for the second byte; `none` for an illegal leading byte. -/
def first (b : Byte) : Option (Nat × Nat × Nat) :=
  if b.val < 0xC2 then none
  else if b.val < 0xE0 then some (2, 0x80, 0xBF)
  else if b.val = 0xE0 then some (3, 0xA0, 0xBF)
  else if b.val < 0xED then some (3, 0x80, 0xBF)
  else if b.val = 0xED then some (3, 0x80, 0x9F)
  else if b.val < 0xF0 then some (3, 0x80, 0xBF)
  else if b.val = 0xF0 then some (4, 0x90, 0xBF)
  else if b.val < 0xF4 then some (4, 0x80, 0xBF)
  else if b.val = 0xF4 then some (4, 0x80, 0x8F)
  else none

/-- Continuation byte test: between `locb` and `hicb`. -/
def isCont (c : Byte) : Bool := 0x80 ≤ c.val && c.val ≤ 0xBF

/-- Function `utf8.ValidString`: the scan over the bytes of `s`. -/
def ValidString : GoString → Bool
  | [] => true
  | b :: rest =>
    if b.val < 0x80 then ValidString rest
    else
      match first b, rest with
      | some (2, lo, hi), c1 :: r =>
        (lo ≤ c1.val && c1.val ≤ hi) && ValidString r
      | some (3, lo, hi), c1 :: c2 :: r =>
        (lo ≤ c1.val && c1.val ≤ hi) && isCont c2 && ValidString r
      | some (4, lo, hi), c1 :: c2 :: c3 :: r =>
        (lo ≤ c1.val && c1.val ≤ hi) && isCont c2 && isCont c3 && ValidString r
      | _, _ => false

/-- A value of `time.Time` returned by `time.Now()`: its monotonic clock
reading, in nanoseconds. -/
abbrev Time := Int

/-- Type `time.Duration`: a number of nanoseconds. -/
abbrev Duration := Int

/-- Method `Time.Sub`: the duration `t - u`. -/
def Time.Sub (t u : Time) : Duration := t - u

/-- Method `Duration.Seconds`: the duration in seconds. -/
def Duration.Seconds (d : Duration) : ℚ := (d : ℚ) / 1000000000

/-- Type `net.IP`, by its textual form. -/
structure NetIP where
  text : String
deriving DecidableEq, Repr

/-- Method `IP.String`. -/
def NetIP.String (ip : NetIP) : String := ip.text

/-- Type `net.TCPAddr`. -/
structure TCPAddr where
  IP : NetIP
  Port : Nat
  Zone : String
deriving DecidableEq, Repr

/-- Function `net.JoinHostPort`. -/
def JoinHostPort (host port : String) : String :=
  if ':' ∈ host.data then "[" ++ host ++ "]:" ++ port else host ++ ":" ++ port

/-- Method `TCPAddr.String`: the form `ip:port`, with the zone when there is one. -/
def TCPAddr.String (a : TCPAddr) : String :=
  if a.Zone ≠ "" then JoinHostPort (a.IP.String ++ "%" ++ a.Zone) (toString a.Port)
  else JoinHostPort a.IP.String (toString a.Port)

/-- A connection (`net.Conn`): an identity and the address of the peer. -/
structure NetConn where
  id : Nat
  RemoteAddr : TCPAddr
deriving DecidableEq, Repr

/-- Input/output actions of the handlers. -/
inductive Effect where
  /-- Call `conn.Write(b)`. -/
  | Write (conn : NetConn) (b : GoString)
  /-- Call `conn.Write` on `fmt.Sprintf("You are banned MF: %f secs left\n", secs)`;
  the rendering of the number is not modelled. -/
  | WriteSecsLeft (conn : NetConn) (secs : ℚ)
  /-- Call `conn.Close()`. -/
  | Close (conn : NetConn)
  /-- Call `log.Printf(format, args...)`. -/
  | Printf (format : String) (args : List GoString)
deriving DecidableEq

/-- A Go map with string keys: its entries, in the order a `range` loop visits
them (which Go leaves unspecified). -/
structure GoMap (V : Type) where
  entries : List (String × V)
deriving DecidableEq

namespace GoMap

variable {V : Type}

/-- Result of `make(map[string]V)`. -/
def empty : GoMap V := ⟨[]⟩

/-- Lookup in a list of entries. -/
def getL : List (String × V) → String → Option V
  | [], _ => none
  | (k', v) :: rest, k => if k' = k then some v else getL rest k

/-- Assignment in a list of entries. -/
def setL : List (String × V) → String → V → List (String × V)
  | [], k, v => [(k, v)]
  | (k', v') :: rest, k, v =>
    if k' = k then (k, v) :: rest else (k', v') :: setL rest k v

/-- The lookup `m[k]`: `none` when the key is absent. -/
def get (m : GoMap V) (k : String) : Option V := getL m.entries k

/-- The assignment `m[k] = v`. -/
def set (m : GoMap V) (k : String) (v : V) : GoMap V := ⟨setL m.entries k v⟩

/-- Removal from a list of entries. -/
def delL : List (String × V) → String → List (String × V)
  | [], _ => []
  | (k', v) :: rest, k => if k' = k then delL rest k else (k', v) :: delL rest k

/-- The call `delete(m, k)`. -/
def delete (m : GoMap V) (k : String) : GoMap V := ⟨delL m.entries k⟩

/-- The keys, in the order of the entries. -/
def keys (m : GoMap V) : List String := m.entries.map Prod.fst

end GoMap

/-! ## The program -/

/-- Constant `Port`. -/
def Port : String := "6969"

/-- Constant `SafeMode`. -/
def SafeMode : Bool := true

/-- Constant `MessageRate`, in seconds. -/
def MessageRate : ℚ := 1.0

/-- Constant `BanLimit`, in seconds. -/
def BanLimit : ℚ := 10 * 60.0

/-- Constant `StrikeLimit`. -/
def StrikeLimit : Int := 10

/-- Go arithmetic on `int` (64 bits, two's complement): the result is reduced
modulo `2^64` into the range from `-2^63` to `2^63 - 1`. -/
def wrapInt (x : Int) : Int :=
  (x + 9223372036854775808) % 18446744073709551616 - 9223372036854775808

/-- Type `MessageType`, an `int`. -/
abbrev MessageType := Int

/-- Constant `ClientConnected`, `iota + 1` at `iota = 0`. -/
def ClientConnected : MessageType := 0 + 1

/-- Constant `ClientDisconnected`, `iota + 1` at `iota = 1`. -/
def ClientDisconnected : MessageType := 1 + 1

/-- Constant `NewMessage`, `iota + 1` at `iota = 2`. -/
def NewMessage : MessageType := 2 + 1

/-- Type `Message`. -/
structure Message where
  Type_ : MessageType
  Conn : NetConn
  Text : GoString
deriving DecidableEq

/-- Type `Client`. The field `StrikeCount` is a Go `int`: its values lie from
`-2^63` to `2^63 - 1` and its increment wraps (`wrapInt`). -/
structure Client where
  Conn : NetConn
  LastMessage : Time
  StrikeCount : Int
deriving DecidableEq

/-- Function `sensitive`. -/
def sensitive (message : String) : String :=
  if SafeMode then "[REDACTED]" else message

/-- Function `isMessageValid`. -/
def isMessageValid (text : GoString) : Bool := ValidString text

/-- The `range` loop of `broadcastMessage` over the entries of the map. -/
def broadcastLoop (msg : Message) (authorAddr : TCPAddr) :
    List (String × Client) → List Effect
  | [] => []
  | (_, client) :: rest =>
    if client.Conn.RemoteAddr.String ≠ authorAddr.String then
      Effect.Write client.Conn msg.Text :: broadcastLoop msg authorAddr rest
    else
      broadcastLoop msg authorAddr rest

/-- Function `broadcastMessage`. -/
def broadcastMessage (msg : Message) (clients : GoMap Client) (authorAddr : TCPAddr) :
    GoMap Client × List Effect :=
  (clients, broadcastLoop msg authorAddr clients.entries)

/-- Function `handleClientConnected`; `now` is the value of `time.Now()`. -/
def handleClientConnected (msg : Message) (now : Time) (clients : GoMap Client)
    (bannedClients : GoMap Time) : GoMap Client × GoMap Time × List Effect :=
  let addr := msg.Conn.RemoteAddr
  let registered : GoMap Client × GoMap Time × List Effect :=
    (clients.set addr.String { Conn := msg.Conn, LastMessage := now, StrikeCount := 0 },
      bannedClients,
      [Effect.Printf "Client %s connected" [bytesOf (sensitive addr.String)]])
  match bannedClients.get addr.IP.String with
  | some bannedAt =>
    if Duration.Seconds (Time.Sub now bannedAt) < BanLimit then
      (clients, bannedClients,
        [Effect.WriteSecsLeft msg.Conn (BanLimit - Duration.Seconds (Time.Sub now bannedAt)),
          Effect.Close msg.Conn])
    else registered
  | none => registered

/-- Function `handleClientDisconnected`. -/
def handleClientDisconnected (msg : Message) (clients : GoMap Client) :
    GoMap Client × List Effect :=
  let addr := msg.Conn.RemoteAddr
  (clients.delete addr.String,
    [Effect.Printf "Client %s disconnected" [bytesOf (sensitive addr.String)]])

/-- Function `handleNewMessage`; `now` is the value of `time.Now()`. -/
def handleNewMessage (msg : Message) (now : Time) (clients : GoMap Client)
    (bannedClients : GoMap Time) : GoMap Client × GoMap Time × List Effect :=
  let authorAddr := msg.Conn.RemoteAddr
  match clients.get authorAddr.String with
  | none => (clients, bannedClients, [Effect.Close msg.Conn])
  | some author =>
    if !isMessageValid msg.Text ||
        decide (Duration.Seconds (Time.Sub now author.LastMessage) < MessageRate) then
      let author : Client := { author with StrikeCount := wrapInt (author.StrikeCount + 1) }
      let clients := clients.set authorAddr.String author
      if author.StrikeCount ≥ StrikeLimit then
        (clients, bannedClients.set authorAddr.IP.String now,
          [Effect.Write author.Conn (bytesOf "You are banned MF\n"),
            Effect.Close author.Conn])
      else (clients, bannedClients, [])
    else
      let author : Client := { author with LastMessage := now, StrikeCount := 0 }
      let clients := clients.set authorAddr.String author
      let sent := broadcastMessage msg clients authorAddr
      (sent.1, bannedClients,
        Effect.Printf "Client %s sent message %s"
          [bytesOf (sensitive authorAddr.String), msg.Text] :: sent.2)

/-- The local variables of `server`. -/
structure State where
  clients : GoMap Client
  bannedClients : GoMap Time
deriving DecidableEq

/-- One iteration of the loop of `server`: the `switch` on the message type.
The message comes with the value `time.Now()` has while it is handled. -/
def serverStep (s : State) (msg : Message) (now : Time) : State × List Effect :=
  if msg.Type_ = ClientConnected then
    let r := handleClientConnected msg now s.clients s.bannedClients
    (⟨r.1, r.2.1⟩, r.2.2)
  else if msg.Type_ = ClientDisconnected then
    let r := handleClientDisconnected msg s.clients
    (⟨r.1, s.bannedClients⟩, r.2)
  else if msg.Type_ = NewMessage then
    let r := handleNewMessage msg now s.clients s.bannedClients
    (⟨r.1, r.2.1⟩, r.2.2)
  else (s, [])

/-- The loop of `server` from given maps, over the messages received from the
channel in order. -/
def serverLoop (s : State) : List (Message × Time) → State × List Effect
  | [] => (s, [])
  | (msg, now) :: rest =>
    let r := serverStep s msg now
    let r' := serverLoop r.1 rest
    (r'.1, r.2 ++ r'.2)

/-- Function `server`: the loop from the two empty maps. -/
def server (messages : List (Message × Time)) : State × List Effect :=
  serverLoop ⟨GoMap.empty, GoMap.empty⟩ messages

/-! ## Notions used to state the properties -/

/-- The session as `handleNewMessage` leaves it after a rejected message. -/
def struck (author : Client) : Client :=
  { author with StrikeCount := wrapInt (author.StrikeCount + 1) }

/-- The session as `handleNewMessage` leaves it after an accepted message. -/
def accepted (author : Client) (now : Time) : Client :=
  { author with LastMessage := now, StrikeCount := 0 }

/-- The notice written when the strike limit is reached. -/
def banNotice : GoString := bytesOf "You are banned MF\n"

/-- A run of messages from the connection address `addr`, each of which
`handleNewMessage` rejects for a session whose last accepted message is at
`last`: the text is not valid UTF-8, or less than one second has elapsed. -/
def rejectedRun (addr : TCPAddr) (last : Time) (run : List (Message × Time)) : Prop :=
  ∀ e ∈ run, e.1.Type_ = NewMessage ∧ e.1.Conn.RemoteAddr = addr ∧
    (ValidString e.1.Text = false ∨ e.2 - last < 1000000000)

/-- Time of the last message handled, `0` when there is none. -/
def lastTime : List (Message × Time) → Time
  | [] => 0
  | [e] => e.2
  | _ :: e :: rest => lastTime (e :: rest)

/-- The times at which the messages are handled never decrease. -/
def timesOrdered (messages : List (Message × Time)) : Prop :=
  (messages.map Prod.snd).Pairwise (fun t u => t ≤ u)

/-! ## Sample data -/

/-- A peer address. -/
def addrX : TCPAddr := ⟨⟨"10.0.0.1"⟩, 4000, ""⟩

/-- A connection from `addrX`. -/
def connX : NetConn := ⟨1, addrX⟩

/-- A peer address on another host. -/
def addrY : TCPAddr := ⟨⟨"10.0.0.2"⟩, 5000, ""⟩

/-- A connection from `addrY`. -/
def connY : NetConn := ⟨2, addrY⟩

/-- A text that is not valid UTF-8. -/
def badText : GoString := [0xFF]

/-- A message from `connX` whose text is not valid UTF-8. -/
def badMsgX : Message := ⟨NewMessage, connX, badText⟩

/-- The connection event of `connX`. -/
def connectX : Message := ⟨ClientConnected, connX, []⟩

/-- A state in which `connX` has a fresh session and nobody is banned. -/
def freshX : State := ⟨⟨[(addrX.String, ⟨connX, 0, 0⟩)]⟩, GoMap.empty⟩

/-- A state in which only `connY` has a session and nobody is banned. -/
def onlyY : State := ⟨⟨[(addrY.String, ⟨connY, 0, 0⟩)]⟩, GoMap.empty⟩

/-- The connection of `connX` at time 0 followed by ten messages that are not
valid UTF-8, the last of them at time 7. -/
def bannedRun : List (Message × Time) :=
  (connectX, 0) :: (List.replicate 9 (badMsgX, (5 : Time)) ++ [(badMsgX, 7)])

/-- The scenario of a client `X` that connects at time `t`, sends "hi" at once,
"bye" a tenth of a second later and "yo" two seconds after that. -/
def scenario (X : NetConn) (t : Time) : List (Message × Time) :=
  [(⟨ClientConnected, X, []⟩, t),
    (⟨NewMessage, X, bytesOf "hi"⟩, t),
    (⟨NewMessage, X, bytesOf "bye"⟩, t + 100000000),
    (⟨NewMessage, X, bytesOf "yo"⟩, t + 100000000 + 2000000000)]

/-! ## Lemmas on maps -/

namespace GoMap

variable {V : Type}

theorem getL_setL_same (l : List (String × V)) (k : String) (v : V) :
    getL (setL l k v) k = some v := by
  induction l with
  | nil => simp [setL, getL]
  | cons e rest ih =>
    obtain ⟨k', v'⟩ := e
    by_cases h : k' = k
    · simp [setL, getL, h]
    · simp [setL, getL, h, ih]

theorem getL_setL_other (l : List (String × V)) (k k' : String) (v : V) (h : k' ≠ k) :
    getL (setL l k v) k' = getL l k' := by
  induction l with
  | nil => simp [setL, getL, Ne.symm h]
  | cons e rest ih =>
    obtain ⟨k0, v0⟩ := e
    by_cases h0 : k0 = k
    · subst h0
      simp [setL, getL, Ne.symm h]
    · simp only [setL, h0, if_false, getL, ih]

theorem getL_delL_same (l : List (String × V)) (k : String) :
    getL (delL l k) k = none := by
  induction l with
  | nil => simp [delL, getL]
  | cons e rest ih =>
    obtain ⟨k0, v0⟩ := e
    by_cases h0 : k0 = k
    · simp [delL, h0, ih]
    · simp [delL, h0, getL, ih]

theorem getL_delL_other (l : List (String × V)) (k k' : String) (h : k' ≠ k) :
    getL (delL l k) k' = getL l k' := by
  induction l with
  | nil => simp [delL, getL]
  | cons e rest ih =>
    obtain ⟨k0, v0⟩ := e
    by_cases h0 : k0 = k
    · subst h0
      simp [delL, getL, Ne.symm h, ih]
    · simp [delL, h0, getL, ih]

theorem delL_of_getL_none (l : List (String × V)) (k : String) (h : getL l k = none) :
    delL l k = l := by
  induction l with
  | nil => simp [delL]
  | cons e rest ih =>
    obtain ⟨k0, v0⟩ := e
    by_cases h0 : k0 = k
    · simp [getL, h0] at h
    · simp only [getL, h0, if_false] at h
      simp [delL, h0, ih h]

theorem get_set_same (m : GoMap V) (k : String) (v : V) : (m.set k v).get k = some v :=
  getL_setL_same m.entries k v

theorem get_set_other (m : GoMap V) (k k' : String) (v : V) (h : k' ≠ k) :
    (m.set k v).get k' = m.get k' :=
  getL_setL_other m.entries k k' v h

theorem get_delete_same (m : GoMap V) (k : String) : (m.delete k).get k = none :=
  getL_delL_same m.entries k

theorem get_delete_other (m : GoMap V) (k k' : String) (h : k' ≠ k) :
    (m.delete k).get k' = m.get k' :=
  getL_delL_other m.entries k k' h

theorem delete_of_get_none (m : GoMap V) (k : String) (h : m.get k = none) :
    m.delete k = m := by
  cases m with
  | mk entries =>
    simp only [delete, get] at *
    rw [delL_of_getL_none entries k h]

theorem delete_delete (m : GoMap V) (k : String) : (m.delete k).delete k = m.delete k :=
  delete_of_get_none (m.delete k) k (get_delete_same m k)

theorem get_empty (k : String) : (empty : GoMap V).get k = none := rfl

theorem setL_setL_same (l : List (String × V)) (k : String) (v w : V) :
    setL (setL l k v) k w = setL l k w := by
  induction l with
  | nil => simp [setL]
  | cons e rest ih =>
    obtain ⟨k0, v0⟩ := e
    by_cases h0 : k0 = k
    · simp [setL, h0]
    · simp [setL, h0, ih]

theorem set_set_same (m : GoMap V) (k : String) (v w : V) :
    (m.set k v).set k w = m.set k w := by
  simp only [set, setL_setL_same]

theorem getL_mem (l : List (String × V)) (k : String) (v : V) (h : getL l k = some v) :
    (k, v) ∈ l := by
  induction l with
  | nil => simp [getL] at h
  | cons e rest ih =>
    obtain ⟨k0, v0⟩ := e
    by_cases h0 : k0 = k
    · simp only [getL, h0, if_true, Option.some.injEq] at h
      simp [h0, h]
    · simp only [getL, h0, if_false] at h
      exact List.mem_cons_of_mem _ (ih h)

theorem mem_setL_other (l : List (String × V)) (k : String) (v : V) (e : String × V)
    (he : e ∈ l) (hk : e.1 ≠ k) : e ∈ setL l k v := by
  induction l with
  | nil => simp at he
  | cons e0 rest ih =>
    obtain ⟨k0, v0⟩ := e0
    by_cases h0 : k0 = k
    · simp only [setL, h0, if_true]
      rcases List.mem_cons.mp he with h | h
      · subst h
        exact absurd h0 hk
      · exact List.mem_cons_of_mem _ h
    · simp only [setL, h0, if_false]
      rcases List.mem_cons.mp he with h | h
      · subst h
        exact List.mem_cons_self _ _
      · exact List.mem_cons_of_mem _ (ih h)

end GoMap

/-! ## Lemmas on the arithmetic of `int` -/

theorem wrapInt_of_range (x : Int) (hlo : -9223372036854775808 ≤ x)
    (hhi : x < 9223372036854775808) : wrapInt x = x := by
  unfold wrapInt
  omega

theorem wrapInt_succ_max : wrapInt (9223372036854775807 + 1) = -9223372036854775808 := by
  decide

theorem wrapInt_succ_of_limit (x : Int) (hlo : -9223372036854775808 ≤ x)
    (hhi : x < 9223372036854775808) (hl : 10 ≤ wrapInt (x + 1)) :
    wrapInt (x + 1) = x + 1 := by
  unfold wrapInt at hl ⊢
  omega

/-! ## Lemmas on durations -/

theorem Seconds_lt_MessageRate (now t : Time) :
    Duration.Seconds (Time.Sub now t) < MessageRate ↔ now - t < 1000000000 := by
  unfold Duration.Seconds Time.Sub MessageRate
  rw [div_lt_iff₀ (by norm_num)]
  norm_num
  exact_mod_cast Iff.rfl

theorem Seconds_lt_BanLimit (now t : Time) :
    Duration.Seconds (Time.Sub now t) < BanLimit ↔ now - t < 600000000000 := by
  unfold Duration.Seconds Time.Sub BanLimit
  rw [div_lt_iff₀ (by norm_num)]
  norm_num
  exact_mod_cast Iff.rfl

/-! ## The branches of the handlers -/

theorem handleNewMessage_none (msg : Message) (now : Time) (clients : GoMap Client)
    (bannedClients : GoMap Time)
    (h : clients.get msg.Conn.RemoteAddr.String = none) :
    handleNewMessage msg now clients bannedClients =
      (clients, bannedClients, [Effect.Close msg.Conn]) := by
  simp only [handleNewMessage, h]

theorem handleNewMessage_reject (msg : Message) (now : Time) (clients : GoMap Client)
    (bannedClients : GoMap Time) (author : Client)
    (h : clients.get msg.Conn.RemoteAddr.String = some author)
    (hr : ValidString msg.Text = false ∨ now - author.LastMessage < 1000000000) :
    handleNewMessage msg now clients bannedClients =
      if StrikeLimit ≤ (struck author).StrikeCount then
        (clients.set msg.Conn.RemoteAddr.String (struck author),
          bannedClients.set msg.Conn.RemoteAddr.IP.String now,
          [Effect.Write author.Conn banNotice, Effect.Close author.Conn])
      else
        (clients.set msg.Conn.RemoteAddr.String (struck author), bannedClients, []) := by
  have hc : (!isMessageValid msg.Text ||
      decide (Duration.Seconds (Time.Sub now author.LastMessage) < MessageRate)) = true := by
    rcases hr with hv | ht
    · simp [isMessageValid, hv]
    · simp [(Seconds_lt_MessageRate now author.LastMessage).mpr ht]
  simp only [handleNewMessage, h, hc, if_true, struck, banNotice, ge_iff_le]

theorem handleNewMessage_accept (msg : Message) (now : Time) (clients : GoMap Client)
    (bannedClients : GoMap Time) (author : Client)
    (h : clients.get msg.Conn.RemoteAddr.String = some author)
    (hv : ValidString msg.Text = true)
    (ht : 1000000000 ≤ now - author.LastMessage) :
    handleNewMessage msg now clients bannedClients =
      (clients.set msg.Conn.RemoteAddr.String (accepted author now), bannedClients,
        Effect.Printf "Client %s sent message %s"
            [bytesOf (sensitive msg.Conn.RemoteAddr.String), msg.Text] ::
          broadcastLoop msg msg.Conn.RemoteAddr
            (clients.set msg.Conn.RemoteAddr.String (accepted author now)).entries) := by
  have hn : ¬ Duration.Seconds (Time.Sub now author.LastMessage) < MessageRate := by
    rw [Seconds_lt_MessageRate]
    exact not_lt.mpr ht
  have hc : (!isMessageValid msg.Text ||
      decide (Duration.Seconds (Time.Sub now author.LastMessage) < MessageRate)) = false := by
    simp [isMessageValid, hv, hn]
  simp [handleNewMessage, h, hc, accepted, broadcastMessage]

theorem handleClientConnected_refused (msg : Message) (now : Time) (clients : GoMap Client)
    (bannedClients : GoMap Time) (bannedAt : Time)
    (h : bannedClients.get msg.Conn.RemoteAddr.IP.String = some bannedAt)
    (ht : now - bannedAt < 600000000000) :
    handleClientConnected msg now clients bannedClients =
      (clients, bannedClients,
        [Effect.WriteSecsLeft msg.Conn (BanLimit - Duration.Seconds (Time.Sub now bannedAt)),
          Effect.Close msg.Conn]) := by
  simp only [handleClientConnected, h, (Seconds_lt_BanLimit now bannedAt).mpr ht, if_true]

theorem handleClientConnected_registered (msg : Message) (now : Time)
    (clients : GoMap Client) (bannedClients : GoMap Time)
    (h : ∀ bannedAt, bannedClients.get msg.Conn.RemoteAddr.IP.String = some bannedAt →
      600000000000 ≤ now - bannedAt) :
    handleClientConnected msg now clients bannedClients =
      (clients.set msg.Conn.RemoteAddr.String
          { Conn := msg.Conn, LastMessage := now, StrikeCount := 0 },
        bannedClients,
        [Effect.Printf "Client %s connected"
          [bytesOf (sensitive msg.Conn.RemoteAddr.String)]]) := by
  cases hb : bannedClients.get msg.Conn.RemoteAddr.IP.String with
  | none => simp only [handleClientConnected, hb]
  | some bannedAt =>
    have hn : ¬ Duration.Seconds (Time.Sub now bannedAt) < BanLimit := by
      rw [Seconds_lt_BanLimit]
      exact not_lt.mpr (h bannedAt hb)
    simp only [handleClientConnected, hb, hn, if_false]

/-! ## Message handler: accepted, rejected and unknown senders -/

/-- Claim C1. When the author has a session, the text is valid UTF-8 and at
least one second (one second included) has elapsed since the session's last
accepted message, `handleNewMessage` leaves the session with strike count 0 and
last-message time `now`, leaves the ban registry as it was, and its actions are
the log entry followed by those of `broadcastMessage` on the message. -/
theorem handleNewMessage_accept_resets (msg : Message) (now : Time)
    (clients : GoMap Client) (bannedClients : GoMap Time) (author : Client)
    (hs : clients.get msg.Conn.RemoteAddr.String = some author)
    (hv : ValidString msg.Text = true)
    (ht : 1000000000 ≤ now - author.LastMessage) :
    (handleNewMessage msg now clients bannedClients).1.get msg.Conn.RemoteAddr.String =
        some { Conn := author.Conn, LastMessage := now, StrikeCount := 0 } ∧
      (handleNewMessage msg now clients bannedClients).2.1 = bannedClients ∧
      (handleNewMessage msg now clients bannedClients).2.2 =
        Effect.Printf "Client %s sent message %s"
            [bytesOf (sensitive msg.Conn.RemoteAddr.String), msg.Text] ::
          (broadcastMessage msg (handleNewMessage msg now clients bannedClients).1
            msg.Conn.RemoteAddr).2 := by
  rw [handleNewMessage_accept msg now clients bannedClients author hs hv ht]
  refine ⟨?_, rfl, rfl⟩
  exact GoMap.get_set_same _ _ _

theorem handleNewMessage_accept_resets_witness :
    (GoMap.mk [(addrX.String, (⟨connX, 0, 3⟩ : Client))]).get
        (⟨NewMessage, connX, bytesOf "hi"⟩ : Message).Conn.RemoteAddr.String =
        some ⟨connX, 0, 3⟩ ∧
      ValidString (⟨NewMessage, connX, bytesOf "hi"⟩ : Message).Text = true ∧
      (1000000000 : Int) ≤ 1000000000 - (⟨connX, 0, 3⟩ : Client).LastMessage ∧
      (handleNewMessage ⟨NewMessage, connX, bytesOf "hi"⟩ 1000000000
          (GoMap.mk [(addrX.String, (⟨connX, 0, 3⟩ : Client))]) GoMap.empty).1.get
          addrX.String = some ⟨connX, 1000000000, 0⟩ :=
  ⟨by decide, by decide, by decide,
    (handleNewMessage_accept_resets ⟨NewMessage, connX, bytesOf "hi"⟩ 1000000000
      (GoMap.mk [(addrX.String, (⟨connX, 0, 3⟩ : Client))]) GoMap.empty ⟨connX, 0, 3⟩
      (by decide) (by decide) (by decide)).1⟩

theorem handleNewMessage_reject_clients (msg : Message) (now : Time)
    (clients : GoMap Client) (bannedClients : GoMap Time) (author : Client)
    (hs : clients.get msg.Conn.RemoteAddr.String = some author)
    (hr : ValidString msg.Text = false ∨ now - author.LastMessage < 1000000000) :
    (handleNewMessage msg now clients bannedClients).1 =
      clients.set msg.Conn.RemoteAddr.String (struck author) := by
  rw [handleNewMessage_reject msg now clients bannedClients author hs hr]
  split_ifs <;> rfl

theorem handleNewMessage_reject_effects (msg : Message) (now : Time)
    (clients : GoMap Client) (bannedClients : GoMap Time) (author : Client)
    (hs : clients.get msg.Conn.RemoteAddr.String = some author)
    (hr : ValidString msg.Text = false ∨ now - author.LastMessage < 1000000000) :
    (handleNewMessage msg now clients bannedClients).2.2 =
        [Effect.Write author.Conn banNotice, Effect.Close author.Conn] ∨
      (handleNewMessage msg now clients bannedClients).2.2 = [] := by
  rw [handleNewMessage_reject msg now clients bannedClients author hs hr]
  split_ifs
  · exact Or.inl rfl
  · exact Or.inr rfl

/-- Claim C3, as stated, fails at the largest value of `int`: for a session
with strike count `2^63 - 1`, a message that is not valid UTF-8 leaves the
strike count at `-2^63`, not at `2^63`, and no ban is recorded. -/
theorem strike_count_wraps :
    (handleNewMessage badMsgX 0 ⟨[(addrX.String, ⟨connX, 0, 9223372036854775807⟩)]⟩
        GoMap.empty).1.get addrX.String = some ⟨connX, 0, -9223372036854775808⟩ ∧
      (handleNewMessage badMsgX 0 ⟨[(addrX.String, ⟨connX, 0, 9223372036854775807⟩)]⟩
        GoMap.empty).1.get addrX.String ≠ some ⟨connX, 0, 9223372036854775807 + 1⟩ ∧
      (handleNewMessage badMsgX 0 ⟨[(addrX.String, ⟨connX, 0, 9223372036854775807⟩)]⟩
        GoMap.empty).2.1 = GoMap.empty := by
  rw [handleNewMessage_reject badMsgX 0 ⟨[(addrX.String, ⟨connX, 0, 9223372036854775807⟩)]⟩
    GoMap.empty ⟨connX, 0, 9223372036854775807⟩ (by decide) (Or.inl (by decide))]
  decide

/-- Claim C3, amended. When the author has a session and the text is not valid
UTF-8 (whatever the elapsed time) or less than one second has elapsed (whatever
the text), `handleNewMessage` leaves the session with the same connection and
last-message time; its strike count is one more than before when the count was
below `2^63 - 1`, the largest value of `int`, and is `-2^63` when the count was
`2^63 - 1`; every other session is unchanged; and nothing is written to a
connection other than the author's. -/
theorem handleNewMessage_reject_strikes (msg : Message) (now : Time)
    (clients : GoMap Client) (bannedClients : GoMap Time) (author : Client)
    (hs : clients.get msg.Conn.RemoteAddr.String = some author)
    (hr : ValidString msg.Text = false ∨ now - author.LastMessage < 1000000000) :
    (∃ n, (handleNewMessage msg now clients bannedClients).1.get
        msg.Conn.RemoteAddr.String =
          some { Conn := author.Conn, LastMessage := author.LastMessage,
                 StrikeCount := n }) ∧
      (-9223372036854775808 ≤ author.StrikeCount →
        author.StrikeCount < 9223372036854775807 →
        (handleNewMessage msg now clients bannedClients).1.get msg.Conn.RemoteAddr.String =
          some { Conn := author.Conn, LastMessage := author.LastMessage,
                 StrikeCount := author.StrikeCount + 1 }) ∧
      (author.StrikeCount = 9223372036854775807 →
        (handleNewMessage msg now clients bannedClients).1.get msg.Conn.RemoteAddr.String =
          some { Conn := author.Conn, LastMessage := author.LastMessage,
                 StrikeCount := -9223372036854775808 }) ∧
      (∀ k, k ≠ msg.Conn.RemoteAddr.String →
        (handleNewMessage msg now clients bannedClients).1.get k = clients.get k) ∧
      (∀ conn b, Effect.Write conn b ∈ (handleNewMessage msg now clients bannedClients).2.2 →
        conn = author.Conn) ∧
      (∀ conn q,
        Effect.WriteSecsLeft conn q ∉ (handleNewMessage msg now clients bannedClients).2.2) := by
  have hc := handleNewMessage_reject_clients msg now clients bannedClients author hs hr
  have hst : ∀ n, wrapInt (author.StrikeCount + 1) = n →
      (handleNewMessage msg now clients bannedClients).1.get msg.Conn.RemoteAddr.String =
        some ⟨author.Conn, author.LastMessage, n⟩ := by
    intro n hn
    rw [hc, GoMap.get_set_same, ← hn]
    rfl
  refine ⟨⟨_, hst _ rfl⟩, ?_, ?_, ?_, ?_, ?_⟩
  · intro hlo hhi
    exact hst _ (wrapInt_of_range _ (by omega) (by omega))
  · intro hmax
    apply hst
    rw [hmax]
    exact wrapInt_succ_max
  · intro k hk
    rw [hc]
    exact GoMap.get_set_other _ _ _ _ hk
  · intro conn b hm
    rcases handleNewMessage_reject_effects msg now clients bannedClients author hs hr with
      he | he
    · rw [he] at hm
      simp at hm
      exact hm.1
    · rw [he] at hm
      simp at hm
  · intro conn q hm
    rcases handleNewMessage_reject_effects msg now clients bannedClients author hs hr with
      he | he
    · rw [he] at hm
      simp at hm
    · rw [he] at hm
      simp at hm

theorem handleNewMessage_reject_strikes_witness :
    (GoMap.mk [(addrX.String, (⟨connX, 0, 3⟩ : Client))]).get
        (⟨NewMessage, connX, badText⟩ : Message).Conn.RemoteAddr.String =
        some ⟨connX, 0, 3⟩ ∧
      (ValidString (⟨NewMessage, connX, badText⟩ : Message).Text = false ∨
        (5000000000 : Int) - (⟨connX, 0, 3⟩ : Client).LastMessage < 1000000000) ∧
      (handleNewMessage ⟨NewMessage, connX, badText⟩ 5000000000
          (GoMap.mk [(addrX.String, (⟨connX, 0, 3⟩ : Client))]) GoMap.empty).1.get
          addrX.String = some ⟨connX, 0, 3 + 1⟩ :=
  ⟨by decide, Or.inl (by decide),
    (handleNewMessage_reject_strikes ⟨NewMessage, connX, badText⟩ 5000000000
      (GoMap.mk [(addrX.String, (⟨connX, 0, 3⟩ : Client))]) GoMap.empty ⟨connX, 0, 3⟩
      (by decide) (Or.inl (by decide))).2.1 (by decide) (by decide)⟩

/-- Claim C9. When no session is registered for the address of the message's
connection, `handleNewMessage` returns both registries unchanged and its only
action is to close that connection, for every text and every time. -/
theorem handleNewMessage_no_session (msg : Message) (now : Time)
    (clients : GoMap Client) (bannedClients : GoMap Time)
    (hs : clients.get msg.Conn.RemoteAddr.String = none) :
    handleNewMessage msg now clients bannedClients =
      (clients, bannedClients, [Effect.Close msg.Conn]) :=
  handleNewMessage_none msg now clients bannedClients hs

theorem handleNewMessage_no_session_witness :
    (GoMap.mk [(addrY.String, (⟨connY, 0, 3⟩ : Client))]).get
        (⟨NewMessage, connX, bytesOf "hi"⟩ : Message).Conn.RemoteAddr.String = none ∧
      handleNewMessage ⟨NewMessage, connX, bytesOf "hi"⟩ 7
          (GoMap.mk [(addrY.String, (⟨connY, 0, 3⟩ : Client))]) GoMap.empty =
        (GoMap.mk [(addrY.String, (⟨connY, 0, 3⟩ : Client))], GoMap.empty,
          [Effect.Close connX]) :=
  ⟨by decide,
    handleNewMessage_no_session ⟨NewMessage, connX, bytesOf "hi"⟩ 7
      (GoMap.mk [(addrY.String, (⟨connY, 0, 3⟩ : Client))]) GoMap.empty (by decide)⟩

/-! ## Disconnected handler -/

/-- Claim C10. The registry `handleClientDisconnected` returns has no entry for
the address of the connection and agrees with the input registry on every other
key; when there was no session the registry is returned unchanged; handling the
same disconnection twice gives the registry that handling it once gives; and the
loop iteration for a disconnection leaves the ban registry unchanged. -/
theorem handleClientDisconnected_removes (conn : NetConn) (text : GoString)
    (now now' : Time) (s : State) :
    (handleClientDisconnected ⟨ClientDisconnected, conn, text⟩ s.clients).1.get
        conn.RemoteAddr.String = none ∧
      (∀ k, k ≠ conn.RemoteAddr.String →
        (handleClientDisconnected ⟨ClientDisconnected, conn, text⟩ s.clients).1.get k =
          s.clients.get k) ∧
      (s.clients.get conn.RemoteAddr.String = none →
        (handleClientDisconnected ⟨ClientDisconnected, conn, text⟩ s.clients).1 = s.clients) ∧
      (serverStep s ⟨ClientDisconnected, conn, text⟩ now).1 =
        ⟨(handleClientDisconnected ⟨ClientDisconnected, conn, text⟩ s.clients).1,
          s.bannedClients⟩ ∧
      (serverStep (serverStep s ⟨ClientDisconnected, conn, text⟩ now).1
          ⟨ClientDisconnected, conn, text⟩ now').1 =
        (serverStep s ⟨ClientDisconnected, conn, text⟩ now).1 := by
  have hstep : ∀ (t : State) (u : Time),
      (serverStep t ⟨ClientDisconnected, conn, text⟩ u).1 =
        ⟨t.clients.delete conn.RemoteAddr.String, t.bannedClients⟩ := by
    intro t u
    simp [serverStep, ClientDisconnected, ClientConnected, handleClientDisconnected]
  refine ⟨?_, ?_, ?_, ?_, ?_⟩
  · exact GoMap.get_delete_same _ _
  · intro k hk
    exact GoMap.get_delete_other _ _ _ hk
  · intro h
    exact GoMap.delete_of_get_none _ _ h
  · rw [hstep]
    rfl
  · rw [hstep, hstep]
    simp only [GoMap.delete_delete]

/-! ## Connected handler -/

/-- Claim C4. `handleClientConnected` refuses the connection exactly when the
ban registry holds a record for the IP of the address (the port plays no part)
that is less than 600 seconds old. Refusing leaves both registries unchanged,
writes the notice carrying `600 - (now - bannedAt)` seconds and closes the
connection. Otherwise (no record, or a record 600 seconds old or older, 600
included) the registry holds, under the address `ip:port`, a session with
last-message time `now` and strike count 0, every other key is as before, and
the ban registry is unchanged. -/
theorem handleClientConnected_iff_not_banned (msg : Message) (now : Time)
    (clients : GoMap Client) (bannedClients : GoMap Time) :
    (∀ bannedAt, bannedClients.get msg.Conn.RemoteAddr.IP.String = some bannedAt →
        now - bannedAt < 600000000000 →
        handleClientConnected msg now clients bannedClients =
          (clients, bannedClients,
            [Effect.WriteSecsLeft msg.Conn
                ((600 : ℚ) - ((now - bannedAt : Int) : ℚ) / 1000000000),
              Effect.Close msg.Conn])) ∧
      ((∀ bannedAt, bannedClients.get msg.Conn.RemoteAddr.IP.String = some bannedAt →
          600000000000 ≤ now - bannedAt) →
        (handleClientConnected msg now clients bannedClients).1.get
            msg.Conn.RemoteAddr.String =
            some { Conn := msg.Conn, LastMessage := now, StrikeCount := 0 } ∧
          (∀ k, k ≠ msg.Conn.RemoteAddr.String →
            (handleClientConnected msg now clients bannedClients).1.get k = clients.get k) ∧
          (handleClientConnected msg now clients bannedClients).2.1 = bannedClients ∧
          (handleClientConnected msg now clients bannedClients).2.2 =
            [Effect.Printf "Client %s connected"
              [bytesOf (sensitive msg.Conn.RemoteAddr.String)]]) := by
  constructor
  · intro bannedAt hb ht
    rw [handleClientConnected_refused msg now clients bannedClients bannedAt hb ht]
    have hq : BanLimit - Duration.Seconds (Time.Sub now bannedAt) =
        (600 : ℚ) - ((now - bannedAt : Int) : ℚ) / 1000000000 := by
      unfold BanLimit Duration.Seconds Time.Sub
      norm_num
    rw [hq]
  · intro h
    rw [handleClientConnected_registered msg now clients bannedClients h]
    exact ⟨GoMap.get_set_same _ _ _, fun k hk => GoMap.get_set_other _ _ _ _ hk, rfl, rfl⟩

/-! ## Broadcast router -/

theorem broadcastLoop_mem (msg : Message) (authorAddr : TCPAddr)
    (l : List (String × Client)) (x : Effect) (hx : x ∈ broadcastLoop msg authorAddr l) :
    ∃ e ∈ l, e.2.Conn.RemoteAddr.String ≠ authorAddr.String ∧
      x = Effect.Write e.2.Conn msg.Text := by
  induction l with
  | nil => simp [broadcastLoop] at hx
  | cons e rest ih =>
    obtain ⟨k, c⟩ := e
    by_cases hc : c.Conn.RemoteAddr.String = authorAddr.String
    · simp only [broadcastLoop, hc, ne_eq, not_true_eq_false, if_false] at hx
      obtain ⟨e, he, h1, h2⟩ := ih hx
      exact ⟨e, List.mem_cons_of_mem _ he, h1, h2⟩
    · simp only [broadcastLoop, hc, ne_eq, not_false_eq_true, if_true,
        List.mem_cons] at hx
      rcases hx with hx | hx
      · exact ⟨(k, c), List.mem_cons_self _ _, hc, hx⟩
      · obtain ⟨e, he, h1, h2⟩ := ih hx
        exact ⟨e, List.mem_cons_of_mem _ he, h1, h2⟩

theorem broadcastLoop_count (msg : Message) (authorAddr : TCPAddr)
    (l : List (String × Client))
    (hk : (l.map Prod.fst).Nodup)
    (ho : ∀ e ∈ l, e.2.Conn.RemoteAddr.String = e.1)
    (e : String × Client) (he : e ∈ l)
    (hne : e.2.Conn.RemoteAddr.String ≠ authorAddr.String) :
    (broadcastLoop msg authorAddr l).count (Effect.Write e.2.Conn msg.Text) = 1 := by
  induction l with
  | nil => simp at he
  | cons e0 rest ih =>
    obtain ⟨k0, c0⟩ := e0
    simp only [List.map_cons, List.nodup_cons] at hk
    have ho' : ∀ e ∈ rest, e.2.Conn.RemoteAddr.String = e.1 :=
      fun e he => ho e (List.mem_cons_of_mem _ he)
    have hk0 : c0.Conn.RemoteAddr.String = k0 := ho (k0, c0) (List.mem_cons_self _ _)
    rcases List.mem_cons.mp he with h | h
    · subst h
      have hzero : (broadcastLoop msg authorAddr rest).count
          (Effect.Write c0.Conn msg.Text) = 0 := by
        rw [List.count_eq_zero]
        intro hm
        obtain ⟨e1, he1, _, h2⟩ := broadcastLoop_mem msg authorAddr rest _ hm
        have hconn : c0.Conn = e1.2.Conn := by
          injection h2
        have hkey : e1.1 = k0 := by
          rw [← ho' e1 he1, ← hconn, hk0]
        exact hk.1 (hkey ▸ List.mem_map_of_mem Prod.fst he1)
      simp only [broadcastLoop, hne, ne_eq, not_false_eq_true, if_true,
        List.count_cons_self, hzero]
    · have hdiff : c0.Conn ≠ e.2.Conn := by
        intro hc
        have hkey : e.1 = k0 := by
          rw [← ho' e h, ← hc, hk0]
        exact hk.1 (hkey ▸ List.mem_map_of_mem Prod.fst h)
      by_cases hc : c0.Conn.RemoteAddr.String = authorAddr.String
      · simp only [broadcastLoop, hc, ne_eq, not_true_eq_false, if_false]
        exact ih hk.2 ho' h
      · have hw : Effect.Write c0.Conn msg.Text ≠ Effect.Write e.2.Conn msg.Text := by
          intro hw
          injection hw with h1 _
          exact hdiff h1
        simp only [broadcastLoop, hc, ne_eq, not_false_eq_true, if_true]
        rw [List.count_cons_of_ne hw.symm]
        exact ih hk.2 ho' h

/-- Claim C2. For a registry with distinct keys in which every session is
stored under the address of its own connection, `broadcastMessage` returns the
registry unchanged; writes the text of the message exactly once to the
connection of each session whose address differs from the author's; writes
nothing to a connection whose address is the author's; and does nothing else
than writing that text, unmodified, to connections of registered sessions. -/
theorem broadcastMessage_delivers (msg : Message) (clients : GoMap Client)
    (authorAddr : TCPAddr)
    (hk : clients.keys.Nodup)
    (ho : ∀ e ∈ clients.entries, e.2.Conn.RemoteAddr.String = e.1) :
    (broadcastMessage msg clients authorAddr).1 = clients ∧
      (∀ e ∈ clients.entries, e.2.Conn.RemoteAddr.String ≠ authorAddr.String →
        (broadcastMessage msg clients authorAddr).2.count
          (Effect.Write e.2.Conn msg.Text) = 1) ∧
      (∀ conn b, conn.RemoteAddr.String = authorAddr.String →
        Effect.Write conn b ∉ (broadcastMessage msg clients authorAddr).2) ∧
      (∀ x ∈ (broadcastMessage msg clients authorAddr).2,
        ∃ e ∈ clients.entries, x = Effect.Write e.2.Conn msg.Text) := by
  refine ⟨rfl, ?_, ?_, ?_⟩
  · intro e he hne
    exact broadcastLoop_count msg authorAddr clients.entries hk ho e he hne
  · intro conn b hc hm
    obtain ⟨e, _, h1, h2⟩ := broadcastLoop_mem msg authorAddr clients.entries _ hm
    injection h2 with h3 _
    exact h1 (h3 ▸ hc)
  · intro x hx
    obtain ⟨e, he, _, h2⟩ := broadcastLoop_mem msg authorAddr clients.entries _ hx
    exact ⟨e, he, h2⟩

theorem broadcastMessage_delivers_witness :
    (GoMap.mk [(addrX.String, (⟨connX, 0, 0⟩ : Client)),
        (addrY.String, (⟨connY, 0, 0⟩ : Client))]).keys.Nodup ∧
      (∀ e ∈ (GoMap.mk [(addrX.String, (⟨connX, 0, 0⟩ : Client)),
          (addrY.String, (⟨connY, 0, 0⟩ : Client))]).entries,
        e.2.Conn.RemoteAddr.String = e.1) ∧
      (broadcastMessage ⟨NewMessage, connX, bytesOf "hi"⟩
        (GoMap.mk [(addrX.String, (⟨connX, 0, 0⟩ : Client)),
          (addrY.String, (⟨connY, 0, 0⟩ : Client))]) addrX).2.count
          (Effect.Write connY (bytesOf "hi")) = 1 :=
  ⟨by decide, by decide,
    (broadcastMessage_delivers ⟨NewMessage, connX, bytesOf "hi"⟩
      (GoMap.mk [(addrX.String, (⟨connX, 0, 0⟩ : Client)),
        (addrY.String, (⟨connY, 0, 0⟩ : Client))]) addrX (by decide) (by decide)).2.1
      (addrY.String, ⟨connY, 0, 0⟩) (by decide) (by decide)⟩

/-! ## The loop -/

theorem serverStep_connected (s : State) (msg : Message) (now : Time)
    (h : msg.Type_ = ClientConnected) :
    serverStep s msg now =
      (⟨(handleClientConnected msg now s.clients s.bannedClients).1,
          (handleClientConnected msg now s.clients s.bannedClients).2.1⟩,
        (handleClientConnected msg now s.clients s.bannedClients).2.2) := by
  simp only [serverStep, h, if_true]

theorem serverStep_disconnected (s : State) (msg : Message) (now : Time)
    (h : msg.Type_ = ClientDisconnected) :
    serverStep s msg now =
      (⟨(handleClientDisconnected msg s.clients).1, s.bannedClients⟩,
        (handleClientDisconnected msg s.clients).2) := by
  have h1 : ¬ ClientDisconnected = ClientConnected := by decide
  simp only [serverStep, h, h1, if_true, if_false]

theorem serverStep_newMessage (s : State) (msg : Message) (now : Time)
    (h : msg.Type_ = NewMessage) :
    serverStep s msg now =
      (⟨(handleNewMessage msg now s.clients s.bannedClients).1,
          (handleNewMessage msg now s.clients s.bannedClients).2.1⟩,
        (handleNewMessage msg now s.clients s.bannedClients).2.2) := by
  have h1 : ¬ NewMessage = ClientConnected := by decide
  have h2 : ¬ NewMessage = ClientDisconnected := by decide
  simp only [serverStep, h, h1, h2, if_true, if_false]

theorem serverLoop_append (s : State) (l1 l2 : List (Message × Time)) :
    serverLoop s (l1 ++ l2) =
      ((serverLoop (serverLoop s l1).1 l2).1,
        (serverLoop s l1).2 ++ (serverLoop (serverLoop s l1).1 l2).2) := by
  induction l1 generalizing s with
  | nil => simp [serverLoop]
  | cons e rest ih =>
    obtain ⟨msg, now⟩ := e
    rw [List.cons_append]
    simp only [serverLoop]
    rw [ih]
    simp only [List.append_assoc]

theorem serverLoop_single (s : State) (msg : Message) (now : Time) :
    serverLoop s [(msg, now)] = serverStep s msg now := by
  simp [serverLoop]

/-- Rejected messages that keep the strike count below the limit: no action,
no ban record, one strike each. -/
theorem serverLoop_rejects_below (addr : TCPAddr) (run : List (Message × Time)) :
    ∀ (s : State) (author : Client),
      s.clients.get addr.String = some author →
      rejectedRun addr author.LastMessage run →
      0 ≤ author.StrikeCount →
      author.StrikeCount + (run.length : Int) < StrikeLimit →
      (serverLoop s run).2 = [] ∧
        (serverLoop s run).1.bannedClients = s.bannedClients ∧
        (serverLoop s run).1.clients.get addr.String =
          some { Conn := author.Conn, LastMessage := author.LastMessage,
                 StrikeCount := author.StrikeCount + (run.length : Int) } ∧
        (∀ k, k ≠ addr.String → (serverLoop s run).1.clients.get k = s.clients.get k) := by
  induction run with
  | nil =>
    intro s author hs _ _ _
    simp [serverLoop, hs]
  | cons e rest ih =>
    intro s author hs hrun hpos hlen
    obtain ⟨msg, now⟩ := e
    obtain ⟨hty, haddr, hrej⟩ := hrun (msg, now) (List.mem_cons_self _ _)
    simp only at hty haddr hrej
    have hrest : rejectedRun addr (struck author).LastMessage rest :=
      fun e he => hrun e (List.mem_cons_of_mem _ he)
    have hs' : s.clients.get msg.Conn.RemoteAddr.String = some author := by
      rw [haddr]; exact hs
    have hlen' : (rest.length : Int) + 1 = ((msg, now) :: rest).length := by
      simp
    have hnn : (0 : Int) ≤ (rest.length : Int) := Int.natCast_nonneg _
    rw [← hlen'] at hlen
    simp only [StrikeLimit] at hlen
    have hw : wrapInt (author.StrikeCount + 1) = author.StrikeCount + 1 :=
      wrapInt_of_range _ (by omega) (by omega)
    have hsc : (struck author).StrikeCount = author.StrikeCount + 1 := hw
    have hnl : ¬ StrikeLimit ≤ (struck author).StrikeCount := by
      rw [hsc]
      simp only [StrikeLimit]
      omega
    have hstep : serverStep s msg now =
        (⟨s.clients.set addr.String (struck author), s.bannedClients⟩, []) := by
      rw [serverStep_newMessage s msg now hty,
        handleNewMessage_reject msg now s.clients s.bannedClients author hs' hrej]
      simp only [hnl, if_false, haddr]
    have hget : (s.clients.set addr.String (struck author)).get addr.String =
        some (struck author) := GoMap.get_set_same _ _ _
    have hpos2 : 0 ≤ (struck author).StrikeCount := by
      rw [hsc]
      omega
    have hlen2 : (struck author).StrikeCount + (rest.length : Int) < StrikeLimit := by
      rw [hsc]
      simp only [StrikeLimit]
      omega
    obtain ⟨i1, i2, i3, i4⟩ :=
      ih ⟨s.clients.set addr.String (struck author), s.bannedClients⟩ (struck author)
        hget hrest hpos2 hlen2
    simp only [serverLoop, hstep, List.nil_append]
    refine ⟨i1, i2, ?_, ?_⟩
    · rw [i3, ← hlen', hsc]
      simp only [struck, Option.some.injEq, Client.mk.injEq, true_and]
      ring
    · intro k hk
      rw [i4 k hk]
      exact GoMap.get_set_other _ _ _ _ hk

/-- The message that brings the strike count to the limit: ban record, notice,
close; the session stays registered. -/
theorem serverStep_reject_limit (s : State) (msg : Message) (now : Time) (author : Client)
    (hty : msg.Type_ = NewMessage)
    (hs : s.clients.get msg.Conn.RemoteAddr.String = some author)
    (hr : ValidString msg.Text = false ∨ now - author.LastMessage < 1000000000)
    (hl : StrikeLimit ≤ (struck author).StrikeCount) :
    serverStep s msg now =
      (⟨s.clients.set msg.Conn.RemoteAddr.String (struck author),
          s.bannedClients.set msg.Conn.RemoteAddr.IP.String now⟩,
        [Effect.Write author.Conn banNotice, Effect.Close author.Conn]) := by
  rw [serverStep_newMessage s msg now hty,
    handleNewMessage_reject msg now s.clients s.bannedClients author hs hr]
  simp only [hl, if_true]

/-- Ten rejected messages in a row from a session with no strike. -/
theorem serverLoop_ten_rejects (s : State) (addr : TCPAddr) (author : Client)
    (run : List (Message × Time)) (m : Message) (now : Time)
    (hs : s.clients.get addr.String = some author)
    (h0 : author.StrikeCount = 0)
    (hlen : run.length = 9)
    (hrun : rejectedRun addr author.LastMessage (run ++ [(m, now)])) :
    serverLoop s (run ++ [(m, now)]) =
      (⟨(serverLoop s run).1.clients.set addr.String
            { Conn := author.Conn, LastMessage := author.LastMessage, StrikeCount := 10 },
          s.bannedClients.set addr.IP.String now⟩,
        [Effect.Write author.Conn banNotice, Effect.Close author.Conn]) := by
  have hrun9 : rejectedRun addr author.LastMessage run :=
    fun e he => hrun e (List.mem_append_left _ he)
  obtain ⟨hty, haddr, hrej⟩ := hrun (m, now) (List.mem_append_right _ (List.mem_singleton_self _))
  simp only at hty haddr hrej
  have hb : author.StrikeCount + (run.length : Int) < StrikeLimit := by
    rw [h0, hlen]; decide
  obtain ⟨i1, i2, i3, _⟩ :=
    serverLoop_rejects_below addr run s author hs hrun9 (le_of_eq h0.symm) hb
  rw [h0, hlen] at i3
  have hs9 : (serverLoop s run).1.clients.get m.Conn.RemoteAddr.String =
      some { Conn := author.Conn, LastMessage := author.LastMessage, StrikeCount := 9 } := by
    rw [haddr, i3]; rfl
  have hten : struck (⟨author.Conn, author.LastMessage, 9⟩ : Client) =
      ⟨author.Conn, author.LastMessage, 10⟩ := by
    have h10 : wrapInt ((9 : Int) + 1) = 10 := by decide
    simp only [struck, h10]
  have hl : StrikeLimit ≤ (struck (⟨author.Conn, author.LastMessage, 9⟩ : Client)).StrikeCount := by
    rw [hten]
    show StrikeLimit ≤ (10 : Int)
    decide
  rw [serverLoop_append, serverLoop_single,
    serverStep_reject_limit (serverLoop s run).1 m now _ hty hs9 hrej hl, i1, i2, haddr, hten]
  rfl

/-- Claim C5. From a session with no strike, a run of ten consecutive rejected
messages: after any number up to nine of them nothing has been written or
closed and the ban registry is as it was; the whole run has exactly two
actions, the write of the fixed notice to the author's connection and its
close, both from the tenth message; the ban registry then holds the time of
the tenth message for the author's IP and is unchanged for every other IP. -/
theorem ban_on_tenth_strike (s : State) (addr : TCPAddr) (author : Client)
    (run : List (Message × Time)) (m : Message) (now : Time)
    (hs : s.clients.get addr.String = some author)
    (h0 : author.StrikeCount = 0)
    (hlen : run.length = 9)
    (hrun : rejectedRun addr author.LastMessage (run ++ [(m, now)])) :
    (∀ n, n ≤ 9 →
        (serverLoop s (run.take n)).2 = [] ∧
          (serverLoop s (run.take n)).1.bannedClients = s.bannedClients) ∧
      (serverLoop s (run ++ [(m, now)])).2 =
        [Effect.Write author.Conn (bytesOf "You are banned MF\n"),
          Effect.Close author.Conn] ∧
      (serverLoop s (run ++ [(m, now)])).1.bannedClients.get addr.IP.String = some now ∧
      (∀ ip, ip ≠ addr.IP.String →
        (serverLoop s (run ++ [(m, now)])).1.bannedClients.get ip =
          s.bannedClients.get ip) := by
  refine ⟨?_, ?_⟩
  · intro n hn
    have hsub : rejectedRun addr author.LastMessage (run.take n) :=
      fun e he => hrun e (List.mem_append_left _ (List.mem_of_mem_take he))
    have hle : (run.take n).length ≤ 9 := by
      rw [List.length_take]
      exact le_trans (min_le_left _ _) hn
    have hb : author.StrikeCount + ((run.take n).length : Int) < StrikeLimit := by
      rw [h0]
      have : ((run.take n).length : Int) ≤ 9 := by exact_mod_cast hle
      simp only [StrikeLimit]
      linarith
    obtain ⟨i1, i2, _, _⟩ :=
      serverLoop_rejects_below addr (run.take n) s author hs hsub (le_of_eq h0.symm) hb
    exact ⟨i1, i2⟩
  · rw [serverLoop_ten_rejects s addr author run m now hs h0 hlen hrun]
    exact ⟨rfl, GoMap.get_set_same _ _ _, fun ip hip => GoMap.get_set_other _ _ _ _ hip⟩

theorem ban_on_tenth_strike_witness :
    freshX.clients.get addrX.String = some ⟨connX, 0, 0⟩ ∧
      (⟨connX, 0, 0⟩ : Client).StrikeCount = 0 ∧
      (List.replicate 9 (badMsgX, (5 : Time))).length = 9 ∧
      rejectedRun addrX (⟨connX, 0, 0⟩ : Client).LastMessage
        (List.replicate 9 (badMsgX, (5 : Time)) ++ [(badMsgX, 7)]) ∧
      (serverLoop freshX (List.replicate 9 (badMsgX, (5 : Time)) ++ [(badMsgX, 7)])).2 =
        [Effect.Write connX (bytesOf "You are banned MF\n"), Effect.Close connX] ∧
      (serverLoop freshX
        (List.replicate 9 (badMsgX, (5 : Time)) ++ [(badMsgX, 7)])).1.bannedClients.get
          addrX.IP.String = some 7 :=
  ⟨by decide, rfl, by decide, by unfold rejectedRun; decide,
    (ban_on_tenth_strike freshX addrX ⟨connX, 0, 0⟩ (List.replicate 9 (badMsgX, (5 : Time)))
      badMsgX 7 (by decide) rfl (by decide) (by unfold rejectedRun; decide)).2.1,
    (ban_on_tenth_strike freshX addrX ⟨connX, 0, 0⟩ (List.replicate 9 (badMsgX, (5 : Time)))
      badMsgX 7 (by decide) rfl (by decide) (by unfold rejectedRun; decide)).2.2.1⟩

/-! ## The session at the strike limit -/

/-- Claim C6, as stated, fails: with nine strikes on record, a message that is
not valid UTF-8 raises the strike count to ten, and the registry
`handleNewMessage` returns still holds the author's session. -/
theorem session_kept_at_limit :
    (handleNewMessage badMsgX 0 ⟨[(addrX.String, ⟨connX, 0, 9⟩)]⟩ GoMap.empty).1.get
        addrX.String = some ⟨connX, 0, 10⟩ ∧
      (handleNewMessage badMsgX 0 ⟨[(addrX.String, ⟨connX, 0, 9⟩)]⟩ GoMap.empty).1.get
        addrX.String ≠ none := by
  rw [handleNewMessage_reject badMsgX 0 ⟨[(addrX.String, ⟨connX, 0, 9⟩)]⟩ GoMap.empty
    ⟨connX, 0, 9⟩ (by decide) (Or.inl (by decide))]
  decide

/-- Claim C6, amended. A rejected message that raises the strike count to the
limit or above makes `handleNewMessage` record the ban, write the notice and
close the connection, but the registry it returns still holds the author's
session, with the raised strike count, which is one more than the count before
for every value of `int`. The entry goes when `handleClientDisconnected`
handles the disconnection of that connection. -/
theorem handleNewMessage_limit_keeps_session (msg : Message) (now : Time)
    (clients : GoMap Client) (bannedClients : GoMap Time) (author : Client)
    (hs : clients.get msg.Conn.RemoteAddr.String = some author)
    (hr : ValidString msg.Text = false ∨ now - author.LastMessage < 1000000000)
    (hl : 10 ≤ wrapInt (author.StrikeCount + 1)) :
    (handleNewMessage msg now clients bannedClients).1.get msg.Conn.RemoteAddr.String =
        some { Conn := author.Conn, LastMessage := author.LastMessage,
               StrikeCount := wrapInt (author.StrikeCount + 1) } ∧
      (handleNewMessage msg now clients bannedClients).2.1.get
        msg.Conn.RemoteAddr.IP.String = some now ∧
      (handleNewMessage msg now clients bannedClients).2.2 =
        [Effect.Write author.Conn (bytesOf "You are banned MF\n"),
          Effect.Close author.Conn] ∧
      (handleClientDisconnected ⟨ClientDisconnected, msg.Conn, []⟩
          (handleNewMessage msg now clients bannedClients).1).1.get
        msg.Conn.RemoteAddr.String = none ∧
      (-9223372036854775808 ≤ author.StrikeCount →
        author.StrikeCount < 9223372036854775808 →
        (handleNewMessage msg now clients bannedClients).1.get msg.Conn.RemoteAddr.String =
          some { Conn := author.Conn, LastMessage := author.LastMessage,
                 StrikeCount := author.StrikeCount + 1 }) := by
  have hl' : StrikeLimit ≤ (struck author).StrikeCount := hl
  rw [handleNewMessage_reject msg now clients bannedClients author hs hr]
  simp only [hl', if_true]
  refine ⟨GoMap.get_set_same _ _ _, GoMap.get_set_same _ _ _, rfl,
    GoMap.get_delete_same _ _, ?_⟩
  intro hlo hhi
  rw [GoMap.get_set_same, ← wrapInt_succ_of_limit author.StrikeCount hlo hhi hl]
  rfl

theorem handleNewMessage_limit_keeps_session_witness :
    (GoMap.mk [(addrX.String, (⟨connX, 0, 9⟩ : Client))]).get
        badMsgX.Conn.RemoteAddr.String = some ⟨connX, 0, 9⟩ ∧
      (ValidString badMsgX.Text = false ∨
        (0 : Int) - (⟨connX, 0, 9⟩ : Client).LastMessage < 1000000000) ∧
      (10 : Int) ≤ wrapInt ((⟨connX, 0, 9⟩ : Client).StrikeCount + 1) ∧
      (handleNewMessage badMsgX 0 ⟨[(addrX.String, ⟨connX, 0, 9⟩)]⟩ GoMap.empty).1.get
        badMsgX.Conn.RemoteAddr.String = some ⟨connX, 0, 9 + 1⟩ :=
  ⟨by decide, Or.inl (by decide), by decide,
    (handleNewMessage_limit_keeps_session badMsgX 0 ⟨[(addrX.String, ⟨connX, 0, 9⟩)]⟩
      GoMap.empty ⟨connX, 0, 9⟩ (by decide) (Or.inl (by decide)) (by decide)).2.2.2.2
      (by decide) (by decide)⟩

/-! ## The scenario of a client that writes right after connecting -/

theorem broadcastLoop_mem_of (msg : Message) (authorAddr : TCPAddr)
    (l : List (String × Client)) (e : String × Client) (he : e ∈ l)
    (hne : e.2.Conn.RemoteAddr.String ≠ authorAddr.String) :
    Effect.Write e.2.Conn msg.Text ∈ broadcastLoop msg authorAddr l := by
  induction l with
  | nil => simp at he
  | cons e0 rest ih =>
    obtain ⟨k0, c0⟩ := e0
    rcases List.mem_cons.mp he with h | h
    · subst h
      simp only [broadcastLoop, hne, ne_eq, not_false_eq_true, if_true]
      exact List.mem_cons_self _ _
    · by_cases hc : c0.Conn.RemoteAddr.String = authorAddr.String
      · simp only [broadcastLoop, hc, ne_eq, not_true_eq_false, if_false]
        exact ih h
      · simp only [broadcastLoop, hc, ne_eq, not_false_eq_true, if_true]
        exact List.mem_cons_of_mem _ (ih h)

theorem serverStep_connect_unbanned (s : State) (X : NetConn) (text : GoString) (t : Time)
    (hb : s.bannedClients.get X.RemoteAddr.IP.String = none) :
    serverStep s ⟨ClientConnected, X, text⟩ t =
      (⟨s.clients.set X.RemoteAddr.String ⟨X, t, 0⟩, s.bannedClients⟩,
        [Effect.Printf "Client %s connected" [bytesOf (sensitive X.RemoteAddr.String)]]) := by
  have h : ∀ bannedAt,
      s.bannedClients.get (⟨ClientConnected, X, text⟩ : Message).Conn.RemoteAddr.IP.String =
        some bannedAt → 600000000000 ≤ t - bannedAt := by
    intro bannedAt hc
    rw [hb] at hc
    cases hc
  rw [serverStep_connected s _ t rfl,
    handleClientConnected_registered _ t s.clients s.bannedClients h]

theorem serverStep_reject_below (s : State) (msg : Message) (now : Time) (author : Client)
    (hty : msg.Type_ = NewMessage)
    (hs : s.clients.get msg.Conn.RemoteAddr.String = some author)
    (hr : ValidString msg.Text = false ∨ now - author.LastMessage < 1000000000)
    (hl : (struck author).StrikeCount < StrikeLimit) :
    serverStep s msg now =
      (⟨s.clients.set msg.Conn.RemoteAddr.String (struck author), s.bannedClients⟩, []) := by
  rw [serverStep_newMessage s msg now hty,
    handleNewMessage_reject msg now s.clients s.bannedClients author hs hr]
  simp only [not_le.mpr hl, if_false]

theorem serverStep_accept (s : State) (msg : Message) (now : Time) (author : Client)
    (hty : msg.Type_ = NewMessage)
    (hs : s.clients.get msg.Conn.RemoteAddr.String = some author)
    (hv : ValidString msg.Text = true)
    (ht : 1000000000 ≤ now - author.LastMessage) :
    serverStep s msg now =
      (⟨s.clients.set msg.Conn.RemoteAddr.String (accepted author now), s.bannedClients⟩,
        Effect.Printf "Client %s sent message %s"
            [bytesOf (sensitive msg.Conn.RemoteAddr.String), msg.Text] ::
          broadcastLoop msg msg.Conn.RemoteAddr
            (s.clients.set msg.Conn.RemoteAddr.String (accepted author now)).entries) := by
  rw [serverStep_newMessage s msg now hty,
    handleNewMessage_accept msg now s.clients s.bannedClients author hs hv ht]

/-- The states and actions of the scenario, message by message. -/
theorem scenario_trace (s : State) (X : NetConn) (t : Time)
    (hb : s.bannedClients.get X.RemoteAddr.IP.String = none) :
    serverLoop s ((scenario X t).take 1) =
        (⟨s.clients.set X.RemoteAddr.String ⟨X, t, 0⟩, s.bannedClients⟩,
          [Effect.Printf "Client %s connected"
            [bytesOf (sensitive X.RemoteAddr.String)]]) ∧
      serverLoop s ((scenario X t).take 2) =
        (⟨s.clients.set X.RemoteAddr.String ⟨X, t, 1⟩, s.bannedClients⟩,
          [Effect.Printf "Client %s connected"
            [bytesOf (sensitive X.RemoteAddr.String)]]) ∧
      serverLoop s ((scenario X t).take 3) =
        (⟨s.clients.set X.RemoteAddr.String ⟨X, t, 2⟩, s.bannedClients⟩,
          [Effect.Printf "Client %s connected"
            [bytesOf (sensitive X.RemoteAddr.String)]]) ∧
      serverLoop s (scenario X t) =
        (⟨s.clients.set X.RemoteAddr.String ⟨X, t + 100000000 + 2000000000, 0⟩,
            s.bannedClients⟩,
          [Effect.Printf "Client %s connected" [bytesOf (sensitive X.RemoteAddr.String)],
            Effect.Printf "Client %s sent message %s"
              [bytesOf (sensitive X.RemoteAddr.String), bytesOf "yo"]] ++
            broadcastLoop ⟨NewMessage, X, bytesOf "yo"⟩ X.RemoteAddr
              (s.clients.set X.RemoteAddr.String
                ⟨X, t + 100000000 + 2000000000, 0⟩).entries) := by
  have e1 := serverStep_connect_unbanned s X [] t hb
  have e2 := serverStep_reject_below
    ⟨s.clients.set X.RemoteAddr.String ⟨X, t, 0⟩, s.bannedClients⟩
    ⟨NewMessage, X, bytesOf "hi"⟩ t ⟨X, t, 0⟩ rfl (GoMap.get_set_same _ _ _)
    (Or.inr (by show t - t < 1000000000; simp))
    (by show wrapInt ((0 : Int) + 1) < StrikeLimit; decide)
  have e3 := serverStep_reject_below
    ⟨s.clients.set X.RemoteAddr.String ⟨X, t, 1⟩, s.bannedClients⟩
    ⟨NewMessage, X, bytesOf "bye"⟩ (t + 100000000) ⟨X, t, 1⟩ rfl (GoMap.get_set_same _ _ _)
    (Or.inr (by show t + 100000000 - t < 1000000000; simp))
    (by show wrapInt ((1 : Int) + 1) < StrikeLimit; decide)
  have e4 := serverStep_accept
    ⟨s.clients.set X.RemoteAddr.String ⟨X, t, 2⟩, s.bannedClients⟩
    ⟨NewMessage, X, bytesOf "yo"⟩ (t + 100000000 + 2000000000) ⟨X, t, 2⟩ rfl
    (GoMap.get_set_same _ _ _) (by show ValidString (bytesOf "yo") = true; decide)
    (by show 1000000000 ≤ t + 100000000 + 2000000000 - t; linarith)
  simp only [GoMap.set_set_same, struck, accepted] at e2 e3 e4
  have n1 : wrapInt ((0 : Int) + 1) = 1 := by decide
  have n2 : wrapInt ((1 : Int) + 1) = 2 := by decide
  rw [n1] at e2
  rw [n2] at e3
  refine ⟨?_, ?_, ?_, ?_⟩
  · simp only [scenario, List.take, serverLoop, e1, List.append_nil]
  · simp only [scenario, List.take, serverLoop, e1, e2, List.append_nil]
  · simp only [scenario, List.take, serverLoop, e1, e2, e3, List.append_nil]
  · simp only [scenario, serverLoop, e1, e2, e3, e4, List.append_nil, List.nil_append,
      List.singleton_append, List.cons_append]

/-- Claim C8, as stated, fails on its first message: with `connY` connected and
nobody banned, `connX` connects at time 0 and sends "hi" at time 0; the
strike count of its session is then 1, not 0, and the only action of the two
messages is the log entry of the connection: "hi" is written to nobody. -/
theorem first_message_after_connect_rejected :
    (serverLoop onlyY ((scenario connX 0).take 2)).1.clients.get addrX.String =
        some ⟨connX, 0, 1⟩ ∧
      (serverLoop onlyY ((scenario connX 0).take 2)).2 =
        [Effect.Printf "Client %s connected" [bytesOf "[REDACTED]"]] := by
  rw [(scenario_trace onlyY connX 0 (by decide)).2.1]
  decide

/-- Claim C8, amended. From a state with no ban record for the IP of `X`, the
scenario gives: "hi", sent at the time of the connection, is rejected (the
session's last-message time is the connection time, so no second has elapsed):
strike count 1, no action; "bye" is rejected: strike count 2, no action; "yo"
is accepted: strike count 0, last-message time the time of "yo", and the
actions are the log entry and the broadcast, which writes "yo" to the
connection of every session registered under another key whose address differs
from the address of `X`. -/
theorem scenario_first_two_rejected (s : State) (X : NetConn) (t : Time)
    (hb : s.bannedClients.get X.RemoteAddr.IP.String = none) :
    (serverLoop s ((scenario X t).take 2)).1.clients.get X.RemoteAddr.String =
        some ⟨X, t, 1⟩ ∧
      (serverLoop s ((scenario X t).take 2)).2 = (serverLoop s ((scenario X t).take 1)).2 ∧
      (serverLoop s ((scenario X t).take 3)).1.clients.get X.RemoteAddr.String =
        some ⟨X, t, 2⟩ ∧
      (serverLoop s ((scenario X t).take 3)).2 = (serverLoop s ((scenario X t).take 1)).2 ∧
      (serverLoop s (scenario X t)).1.clients.get X.RemoteAddr.String =
        some ⟨X, t + 100000000 + 2000000000, 0⟩ ∧
      (serverLoop s (scenario X t)).2 =
        (serverLoop s ((scenario X t).take 1)).2 ++
          Effect.Printf "Client %s sent message %s"
              [bytesOf (sensitive X.RemoteAddr.String), bytesOf "yo"] ::
            (broadcastMessage ⟨NewMessage, X, bytesOf "yo"⟩
              (serverLoop s (scenario X t)).1.clients X.RemoteAddr).2 ∧
      (∀ k c, k ≠ X.RemoteAddr.String → s.clients.get k = some c →
        c.Conn.RemoteAddr.String ≠ X.RemoteAddr.String →
        Effect.Write c.Conn (bytesOf "yo") ∈ (serverLoop s (scenario X t)).2) := by
  obtain ⟨t1, t2, t3, t4⟩ := scenario_trace s X t hb
  rw [t1, t2, t3, t4]
  refine ⟨GoMap.get_set_same _ _ _, rfl, GoMap.get_set_same _ _ _, rfl,
    GoMap.get_set_same _ _ _, rfl, ?_⟩
  intro k c hk hc hne
  have hmem : (k, c) ∈ (s.clients.set X.RemoteAddr.String
      ⟨X, t + 100000000 + 2000000000, 0⟩).entries :=
    GoMap.mem_setL_other _ _ _ (k, c) (GoMap.getL_mem _ _ _ hc) hk
  have hw := broadcastLoop_mem_of ⟨NewMessage, X, bytesOf "yo"⟩ X.RemoteAddr _ (k, c) hmem hne
  exact List.mem_append_right _ hw

theorem scenario_first_two_rejected_witness :
    onlyY.bannedClients.get connX.RemoteAddr.IP.String = none ∧
      (serverLoop onlyY ((scenario connX 0).take 3)).1.clients.get connX.RemoteAddr.String =
        some ⟨connX, 0, 2⟩ ∧
      Effect.Write connY (bytesOf "yo") ∈ (serverLoop onlyY (scenario connX 0)).2 :=
  ⟨by decide,
    (scenario_first_two_rejected onlyY connX 0 (by decide)).2.2.1,
    (scenario_first_two_rejected onlyY connX 0 (by decide)).2.2.2.2.2.2
      addrY.String ⟨connY, 0, 0⟩ (by decide) (by decide) (by decide)⟩

/-! ## Sessions and active bans along a run of the loop -/

theorem server_snoc (l : List (Message × Time)) (a : Message × Time) :
    (server (l ++ [a])).1 = (serverStep (server l).1 a.1 a.2).1 := by
  obtain ⟨msg, now⟩ := a
  simp only [server, serverLoop_append, serverLoop_single]

theorem lastTime_snoc (l : List (Message × Time)) (a : Message × Time) :
    lastTime (l ++ [a]) = a.2 := by
  induction l with
  | nil => rfl
  | cons e rest ih =>
    cases rest with
    | nil => rfl
    | cons e1 rest1 =>
      simp only [List.cons_append, lastTime] at ih ⊢
      exact ih

theorem lastTime_mem (l : List (Message × Time)) (h : l ≠ []) :
    lastTime l ∈ l.map Prod.snd := by
  induction l with
  | nil => exact absurd rfl h
  | cons e rest ih =>
    cases rest with
    | nil => simp [lastTime]
    | cons e1 rest1 =>
      simp only [lastTime]
      exact List.mem_cons_of_mem _ (ih (List.cons_ne_nil _ _))

theorem timesOrdered_snoc (l : List (Message × Time)) (a : Message × Time)
    (h : timesOrdered (l ++ [a])) :
    timesOrdered l ∧ (l ≠ [] → lastTime l ≤ a.2) := by
  unfold timesOrdered at h ⊢
  rw [List.map_append, List.pairwise_append] at h
  refine ⟨h.1, fun hne => ?_⟩
  exact h.2.2 _ (lastTime_mem l hne) a.2 (by simp)

/-- Where the session found under a key after one iteration comes from: either
a session of the same connection was under that key before, or the iteration
registered it, which leaves the ban registry as it was and happens only when
that registry has no record less than 600 seconds old for the IP. -/
theorem serverStep_session_origin (s : State) (msg : Message) (now : Time)
    (k : String) (c : Client)
    (h : (serverStep s msg now).1.clients.get k = some c) :
    (∃ c0, s.clients.get k = some c0 ∧ c0.Conn = c.Conn) ∨
      ((serverStep s msg now).1.bannedClients = s.bannedClients ∧
        ∀ b, s.bannedClients.get c.Conn.RemoteAddr.IP.String = some b →
          600000000000 ≤ now - b) := by
  by_cases h1 : msg.Type_ = ClientConnected
  · rw [serverStep_connected s msg now h1] at h ⊢
    by_cases hact : ∃ b, s.bannedClients.get msg.Conn.RemoteAddr.IP.String = some b ∧
        now - b < 600000000000
    · obtain ⟨b, hb, ht⟩ := hact
      rw [handleClientConnected_refused msg now s.clients s.bannedClients b hb ht] at h ⊢
      exact Or.inl ⟨c, h, rfl⟩
    · have hno : ∀ b, s.bannedClients.get msg.Conn.RemoteAddr.IP.String = some b →
          600000000000 ≤ now - b := by
        intro b hb
        by_contra hlt
        exact hact ⟨b, hb, not_le.mp hlt⟩
      rw [handleClientConnected_registered msg now s.clients s.bannedClients hno] at h ⊢
      by_cases hk : k = msg.Conn.RemoteAddr.String
      · subst hk
        rw [show (GoMap.set s.clients msg.Conn.RemoteAddr.String
            ({ Conn := msg.Conn, LastMessage := now, StrikeCount := 0 } : Client)).get
              msg.Conn.RemoteAddr.String = some ⟨msg.Conn, now, 0⟩ from
          GoMap.get_set_same _ _ _] at h
        injection h with h
        subst h
        exact Or.inr ⟨rfl, hno⟩
      · rw [show (GoMap.set s.clients msg.Conn.RemoteAddr.String
            ({ Conn := msg.Conn, LastMessage := now, StrikeCount := 0 } : Client)).get k =
              s.clients.get k from GoMap.get_set_other _ _ _ _ hk] at h
        exact Or.inl ⟨c, h, rfl⟩
  · by_cases h2 : msg.Type_ = ClientDisconnected
    · rw [serverStep_disconnected s msg now h2] at h
      left
      by_cases hk : k = msg.Conn.RemoteAddr.String
      · subst hk
        rw [show (handleClientDisconnected msg s.clients).1.get msg.Conn.RemoteAddr.String =
          none from GoMap.get_delete_same _ _] at h
        cases h
      · rw [show (handleClientDisconnected msg s.clients).1.get k = s.clients.get k from
          GoMap.get_delete_other _ _ _ hk] at h
        exact ⟨c, h, rfl⟩
    · by_cases h3 : msg.Type_ = NewMessage
      · rw [serverStep_newMessage s msg now h3] at h
        left
        cases hget : s.clients.get msg.Conn.RemoteAddr.String with
        | none =>
          rw [handleNewMessage_none msg now s.clients s.bannedClients hget] at h
          exact ⟨c, h, rfl⟩
        | some author =>
          have key : ∀ a : Client, a.Conn = author.Conn →
              (s.clients.set msg.Conn.RemoteAddr.String a).get k = some c →
              ∃ c0, s.clients.get k = some c0 ∧ c0.Conn = c.Conn := by
            intro a ha hg
            by_cases hk : k = msg.Conn.RemoteAddr.String
            · subst hk
              rw [GoMap.get_set_same] at hg
              injection hg with hg
              subst hg
              exact ⟨author, hget, ha.symm⟩
            · rw [GoMap.get_set_other _ _ _ _ hk] at hg
              exact ⟨c, hg, rfl⟩
          by_cases hr : ValidString msg.Text = false ∨
              now - author.LastMessage < 1000000000
          · rw [handleNewMessage_reject msg now s.clients s.bannedClients author hget hr] at h
            by_cases hl : StrikeLimit ≤ (struck author).StrikeCount
            · simp only [hl, if_true] at h
              exact key (struck author) rfl h
            · simp only [hl, if_false] at h
              exact key (struck author) rfl h
          · have hv : ValidString msg.Text = true := by
              cases hvv : ValidString msg.Text with
              | true => rfl
              | false => exact absurd (Or.inl hvv) hr
            have ht : 1000000000 ≤ now - author.LastMessage := by
              by_contra hlt
              exact hr (Or.inr (not_le.mp hlt))
            rw [handleNewMessage_accept msg now s.clients s.bannedClients author hget hv ht] at h
            exact key (accepted author now) rfl h
      · have hs : serverStep s msg now = (s, []) := by
          simp only [serverStep, h1, h2, h3, if_false]
        rw [hs] at h
        exact Or.inl ⟨c, h, rfl⟩

theorem server_nil_get (k : String) : (server []).1.clients.get k = none := rfl

/-- A session whose IP has a ban record less than 600 seconds old was
registered before that record was written, and has been registered since. -/
theorem active_ban_session_origin (messages : List (Message × Time)) :
    timesOrdered messages →
    ∀ (k : String) (c : Client) (bannedAt : Time),
      (server messages).1.clients.get k = some c →
      (server messages).1.bannedClients.get c.Conn.RemoteAddr.IP.String = some bannedAt →
      lastTime messages - bannedAt < 600000000000 →
      ∃ m, (server (messages.take m)).1.bannedClients.get c.Conn.RemoteAddr.IP.String ≠
            some bannedAt ∧
          ∀ n, m ≤ n → ∃ c1, (server (messages.take n)).1.clients.get k = some c1 ∧
            c1.Conn = c.Conn := by
  induction messages using List.reverseRecOn with
  | nil =>
    intro _ k c bannedAt hs _ _
    rw [server_nil_get] at hs
    cases hs
  | append_singleton l a ih =>
    intro hord k c bannedAt hs hb ha
    obtain ⟨hordl, hlast⟩ := timesOrdered_snoc l a hord
    have hs' := hs
    rw [server_snoc] at hs' hb
    rw [lastTime_snoc] at ha
    have hwhole : ∀ n, l.length < n → (l ++ [a]).take n = l ++ [a] := by
      intro n hn
      apply List.take_of_length_le
      simp only [List.length_append, List.length_singleton]
      omega
    have hpart : ∀ n, n ≤ l.length → (l ++ [a]).take n = l.take n := by
      intro n hn
      exact List.take_append_of_le_length hn
    rcases serverStep_session_origin (server l).1 a.1 a.2 k c hs' with
      ⟨c0, hc0, hconn⟩ | ⟨hbans, hno⟩
    · by_cases hbl : (server l).1.bannedClients.get c.Conn.RemoteAddr.IP.String =
          some bannedAt
      · have hne : l ≠ [] := by
          intro hnil
          subst hnil
          rw [server_nil_get] at hc0
          cases hc0
        have hal : lastTime l - bannedAt < 600000000000 :=
          lt_of_le_of_lt (sub_le_sub_right (hlast hne) bannedAt) ha
        rw [← hconn] at hbl
        obtain ⟨m, hm1, hm2⟩ := ih hordl k c0 bannedAt hc0 hbl hal
        rw [hconn] at hm1 hbl
        have hml : m ≤ l.length := by
          by_contra hgt
          rw [List.take_of_length_le (le_of_lt (not_le.mp hgt))] at hm1
          exact hm1 hbl
        refine ⟨m, by rw [hpart m hml]; exact hm1, ?_⟩
        intro n hn
        by_cases hnl : n ≤ l.length
        · rw [hpart n hnl]
          obtain ⟨c1, h1, h2⟩ := hm2 n hn
          exact ⟨c1, h1, h2.trans hconn⟩
        · rw [hwhole n (not_le.mp hnl)]
          exact ⟨c, hs, rfl⟩
      · refine ⟨l.length, ?_, ?_⟩
        · rw [hpart l.length le_rfl, List.take_length]
          exact hbl
        · intro n hn
          by_cases hnl : n ≤ l.length
          · rw [hpart n hnl, List.take_of_length_le hn]
            exact ⟨c0, hc0, hconn⟩
          · rw [hwhole n (not_le.mp hnl)]
            exact ⟨c, hs, rfl⟩
    · rw [hbans] at hb
      exact absurd ha (not_lt.mpr (hno bannedAt hb))

/-- The state the loop reaches on `bannedRun`. -/
theorem bannedRun_final :
    timesOrdered bannedRun ∧
      (server bannedRun).1.clients.get addrX.String = some ⟨connX, 0, 10⟩ ∧
      (server bannedRun).1.bannedClients.get addrX.IP.String = some 7 ∧
      lastTime bannedRun - 7 < 600000000000 := by
  have h1 := serverStep_connect_unbanned ⟨GoMap.empty, GoMap.empty⟩ connX [] 0 rfl
  have h2 := serverLoop_ten_rejects
    ⟨(GoMap.empty : GoMap Client).set connX.RemoteAddr.String ⟨connX, 0, 0⟩, GoMap.empty⟩
    addrX ⟨connX, 0, 0⟩ (List.replicate 9 (badMsgX, (5 : Time))) badMsgX 7
    (by decide) rfl (by decide) (by unfold rejectedRun; decide)
  have hrun : server bannedRun =
      ((serverLoop (serverStep ⟨GoMap.empty, GoMap.empty⟩ connectX 0).1
          (List.replicate 9 (badMsgX, (5 : Time)) ++ [(badMsgX, 7)])).1,
        (serverStep ⟨GoMap.empty, GoMap.empty⟩ connectX 0).2 ++
          (serverLoop (serverStep ⟨GoMap.empty, GoMap.empty⟩ connectX 0).1
            (List.replicate 9 (badMsgX, (5 : Time)) ++ [(badMsgX, 7)])).2) := rfl
  have h1' : serverStep ⟨GoMap.empty, GoMap.empty⟩ connectX 0 =
      (⟨(GoMap.empty : GoMap Client).set connX.RemoteAddr.String ⟨connX, 0, 0⟩,
          GoMap.empty⟩,
        [Effect.Printf "Client %s connected"
          [bytesOf (sensitive connX.RemoteAddr.String)]]) := h1
  rw [hrun, h1', h2]
  refine ⟨by unfold timesOrdered; decide, GoMap.get_set_same _ _ _,
    GoMap.get_set_same _ _ _, by decide⟩

/-- Claim C7, as stated, fails: `connX` connects at time 0 and sends ten
messages that are not valid UTF-8, the last at time 7. In the state the loop
reaches, the IP of `connX` has a ban record stamped 7, less than 600 seconds
before the current time 7, and the session of `connX` is still registered. -/
theorem banned_session_stays_registered :
    timesOrdered bannedRun ∧
      (∃ c bannedAt, (server bannedRun).1.clients.get addrX.String = some c ∧
        (server bannedRun).1.bannedClients.get addrX.IP.String = some bannedAt ∧
        lastTime bannedRun - bannedAt < 600000000000) :=
  ⟨bannedRun_final.1, ⟨connX, 0, 10⟩, 7, bannedRun_final.2.1, bannedRun_final.2.2.1,
    bannedRun_final.2.2.2⟩

/-- Claim C7, amended. In a state reached from the empty registries by
messages handled at non-decreasing times, a session may be registered while
the IP of its connection has a ban record less than 600 seconds old, but only
a session that was registered before that record was written and has stayed
registered since: there is a number `m` of messages after which the ban
registry did not hold that record, and after `m` or more messages the key holds
a session of the same connection. -/
theorem session_under_active_ban_predates_it (messages : List (Message × Time))
    (hord : timesOrdered messages) (k : String) (c : Client) (bannedAt : Time)
    (hs : (server messages).1.clients.get k = some c)
    (hb : (server messages).1.bannedClients.get c.Conn.RemoteAddr.IP.String = some bannedAt)
    (ha : lastTime messages - bannedAt < 600000000000) :
    ∃ m, (server (messages.take m)).1.bannedClients.get c.Conn.RemoteAddr.IP.String ≠
          some bannedAt ∧
        ∀ n, m ≤ n → ∃ c1, (server (messages.take n)).1.clients.get k = some c1 ∧
          c1.Conn = c.Conn :=
  active_ban_session_origin messages hord k c bannedAt hs hb ha

theorem session_under_active_ban_predates_it_witness :
    timesOrdered bannedRun ∧
      (server bannedRun).1.clients.get addrX.String = some ⟨connX, 0, 10⟩ ∧
      (server bannedRun).1.bannedClients.get
        (⟨connX, 0, 10⟩ : Client).Conn.RemoteAddr.IP.String = some 7 ∧
      lastTime bannedRun - 7 < 600000000000 ∧
      ∃ m, (server (bannedRun.take m)).1.bannedClients.get
            (⟨connX, 0, 10⟩ : Client).Conn.RemoteAddr.IP.String ≠ some 7 ∧
          ∀ n, m ≤ n → ∃ c1, (server (bannedRun.take n)).1.clients.get addrX.String =
            some c1 ∧ c1.Conn = (⟨connX, 0, 10⟩ : Client).Conn :=
  ⟨bannedRun_final.1, bannedRun_final.2.1, bannedRun_final.2.2.1, bannedRun_final.2.2.2,
    session_under_active_ban_predates_it bannedRun bannedRun_final.1 addrX.String
      ⟨connX, 0, 10⟩ 7 bannedRun_final.2.1 bannedRun_final.2.2.1 bannedRun_final.2.2.2⟩

end MultiChat
